import Mathlib

/-!
Verification of the InvestmentDashboard crawler scripts
(fx_rate_crawler.py, sbv_rate_crawler.py, margin_room_crawler.py).

The three Python modules are shallowly embedded below.  HTML tables are
modelled as lists of rows, each row being the list of its cells" stripped
texts (the work BeautifulSoup performs before the code under scrutiny
runs).  Python floats on the plain decimal strings these pages carry are
modelled as rationals; a failed float(...) call (ValueError), a failed
list index (IndexError) and an explicit RuntimeError are modelled by the
error type PyErr.  The PostgreSQL tables are modelled as lists of rows,
and the INSERT ... ON CONFLICT (pk) DO UPDATE statement as an upsert on
such a list keyed by the primary-key columns.
-/

namespace InvestmentDashboard

/-- Python exception outcomes relevant to these scripts. -/
inductive PyErr where
  | valueError
  | indexError
  | runtimeError (msg : String)
deriving DecidableEq

instance {ε α : Type} [DecidableEq ε] [DecidableEq α] : DecidableEq (Except ε α) := by
  intro a b
  cases a <;> cases b
  case error.error e f =>
    exact if h : e = f then .isTrue (by rw [h]) else .isFalse (by simp [h])
  case error.ok e x => exact .isFalse (by simp)
  case ok.error x e => exact .isFalse (by simp)
  case ok.ok x y =>
    exact if h : x = y then .isTrue (by rw [h]) else .isFalse (by simp [h])

/-- Does the first list occur as a leading segment of the second list? -/
def leadsWith : List Char → List Char → Bool
  | [], _ => true
  | _ :: _, [] => false
  | c :: cs, d :: ds => c = d && leadsWith cs ds

/-- Model of the Python substring test `needle in hay` on strings,
on the underlying character lists. -/
def containsSub (needle : List Char) : List Char → Bool
  | [] => needle.isEmpty
  | d :: ds => leadsWith needle (d :: ds) || containsSub needle ds

/-- Numeric value of a decimal digit character. -/
def digitVal (c : Char) : Nat := c.toNat - 48

/-- Value of a list of decimal digit characters, most significant first. -/
def natVal (ds : List Char) : Nat := ds.foldl (fun n c => 10 * n + digitVal c) 0

/-- Split a character list on the period character (Python str.split on a dot). -/
def splitDot : List Char → List (List Char)
  | [] => [[]]
  | c :: rest =>
    if c = '.' then [] :: splitDot rest
    else
      match splitDot rest with
      | [] => [[c]]
      | g :: gs => (c :: g) :: gs

/-- Model of Python float(s) restricted to the unsigned plain decimal
literals these pages carry: a digit string, optionally with one embedded
or trailing or leading period.  Any other shape (two periods, stray
characters, the empty string) raises ValueError, modelled as none. -/
def pyFloat (cs : List Char) : Option ℚ :=
  match splitDot cs with
  | [a] => if a ≠ [] ∧ a.all Char.isDigit then some (natVal a : ℚ) else none
  | [a, b] =>
    if (a ++ b) ≠ [] ∧ (a ++ b).all Char.isDigit then
      some ((natVal (a ++ b) : ℚ) / 10 ^ b.length)
    else none
  | _ => none

/-- Model of the SQL statement INSERT ... ON CONFLICT (pk) DO UPDATE SET
(non-key cols): if a row with the new row's key exists it is overwritten
in place, otherwise the new row is appended. -/
def upsertBy {α β : Type} [DecidableEq β] (key : α → β) (db : List α) (r : α) : List α :=
  if db.any (fun x => decide (key x = key r)) then
    db.map (fun x => if key x = key r then r else x)
  else db ++ [r]

namespace Fx

/-- fx_rate_crawler.parse_rate: substitute comma by period, then float(...). -/
def parse_rate (value : String) : Option ℚ :=
  pyFloat (value.data.map (fun c => if c = ',' then '.' else c))

/-- The uppercased space-joined concatenation of a row's cell texts,
text = " ".join(cells).upper(). -/
def rowTextUpper (cells : List String) : List Char :=
  (String.intercalate " " cells).data.map Char.toUpper

/-- The condition of the USD/VND branch of fetch_fx_rates:
("USD/VND" in text or ("USD" in text and "VND" in text)) and len(cells) > 1. -/
def matchVND (cells : List String) : Bool :=
  (containsSub "USD/VND".data (rowTextUpper cells) ||
    (containsSub "USD".data (rowTextUpper cells) &&
      containsSub "VND".data (rowTextUpper cells))) &&
  decide (1 < cells.length)

/-- The condition of the USD/CNY branch of fetch_fx_rates. -/
def matchCNY (cells : List String) : Bool :=
  (containsSub "USD/CNY".data (rowTextUpper cells) ||
    (containsSub "USD".data (rowTextUpper cells) &&
      containsSub "CNY".data (rowTextUpper cells))) &&
  decide (1 < cells.length)

/-- The row loop of fetch_fx_rates over the first table's rows, carrying the
usd_vnd and usd_cny accumulators (None at entry).  Rows with no cells are
skipped; a matching row assigns its second cell's parsed value to the
matching field; the loop breaks once both fields are set; a failing
parse_rate call propagates as ValueError. -/
def scanRows : List (List String) → Option ℚ → Option ℚ → Except PyErr (Option ℚ × Option ℚ)
  | [], uv, uc => .ok (uv, uc)
  | cells :: rest, uv, uc =>
    if cells.isEmpty then scanRows rest uv uc
    else
      match
        (if matchVND cells then
          match parse_rate (cells.getD 1 "") with
          | some q => Except.ok (some q, uc)
          | none => Except.error PyErr.valueError
        else if matchCNY cells then
          match parse_rate (cells.getD 1 "") with
          | some q => Except.ok (uv, some q)
          | none => Except.error PyErr.valueError
        else Except.ok (uv, uc) : Except PyErr (Option ℚ × Option ℚ)) with
      | .error e => .error e
      | .ok (uv2, uc2) =>
        if uv2.isSome && uc2.isSome then .ok (uv2, uc2)
        else scanRows rest uv2 uc2

/-- fx_rate_crawler.fetch_fx_rates, on an already-fetched document: none
models a page without a table (RuntimeError "No table found on page");
some rows is the cell-text matrix of the first table.  The current
datetime is not modelled (it is returned unchanged alongside the rates). -/
def fetch_fx_rates (table : Option (List (List String))) : Except PyErr (ℚ × ℚ) :=
  match table with
  | none => .error (.runtimeError "No table found on page")
  | some rows =>
    match scanRows rows none none with
    | .error e => .error e
    | .ok (some uv, some uc) => .ok (uv, uc)
    | .ok _ => .error (.runtimeError "Could not parse fx rates from page")

/-- One row of the fx_rate table; date_time TIMESTAMP is modelled as Nat. -/
structure FxRow where
  date_time : Nat
  usd_vnd : ℚ
  usd_cny : ℚ
deriving DecidableEq

/-- fx_rate_crawler.save_fx_rate: upsert one row into fx_rate keyed by
date_time (INSERT ... ON CONFLICT (date_time) DO UPDATE). -/
def save_fx_rate (db : List FxRow) (t : Nat) (uv uc : ℚ) : List FxRow :=
  upsertBy FxRow.date_time db ⟨t, uv, uc⟩

/-- save_fx_rate with its connection/commit failure mode made explicit:
fail = true models a psycopg2 error (PersistenceFailure), which the saver
propagates to its caller. -/
def save_fx_rateE (fail : Bool) (db : List FxRow) (t : Nat) (uv uc : ℚ) :
    Except PyErr (List FxRow) :=
  if fail then .error (.runtimeError "persistence failure")
  else .ok (save_fx_rate db t uv uc)

/-- fx_rate_crawler.main with the connection parameters already resolved
(a well-formed DB_PORT): fetch and parse; on any failure log and return
without touching the store; otherwise save, also catching and logging any
persistence failure.  The result is the final store state; the Except
layer records whether an exception escapes.  The conn_params construction
that sits between the two try blocks is modelled explicitly by mainEnv
below, of which this is the valid-port specialization. -/
def main (table : Option (List (List String))) (t : Nat) (persistFail : Bool)
    (db : List FxRow) : Except PyErr (List FxRow) :=
  match fetch_fx_rates table with
  | .error _ => .ok db
  | .ok (uv, uc) =>
    match save_fx_rateE persistFail db t uv uc with
    | .error _ => .ok db
    | .ok db2 => .ok db2

end Fx

namespace Sbv

/-- sbv_rate_crawler.parse_rate: substitute comma by period, then float(...). -/
def parse_rate (value : String) : Option ℚ :=
  pyFloat (value.data.map (fun c => if c = ',' then '.' else c))

/-- The localized "1 week" label literal exactly as it appears in the
source file (its UTF-8 bytes decode to these code points). -/
def oneWeekLocal : String := "1 Tuáº§n"

/-- cells[0]: the text of a row's leading cell (rows are only inspected
when non-empty, after the `if not cells: continue` guard). -/
def headText (cells : List String) : String := cells.headD ""

/-- The condition of the O/N branch of fetch_rates: "O/N" in cells[0]. -/
def matchON (cells : List String) : Bool :=
  containsSub "O/N".data (headText cells).data

/-- The condition of the 1W branch of fetch_rates:
"1W" in cells[0] or the localized 1-week literal in cells[0]. -/
def match1W (cells : List String) : Bool :=
  containsSub "1W".data (headText cells).data ||
  containsSub oneWeekLocal.data (headText cells).data

/-- The row loop of fetch_rates, carrying the on_rate and onew_rate
accumulators.  The second-cell access cells[1] is unguarded in the
source, so a matching row with fewer than two cells raises IndexError. -/
def scanRows : List (List String) → Option ℚ → Option ℚ → Except PyErr (Option ℚ × Option ℚ)
  | [], onr, wr => .ok (onr, wr)
  | cells :: rest, onr, wr =>
    if cells.isEmpty then scanRows rest onr wr
    else
      match
        (if matchON cells then
          match cells.get? 1 with
          | none => Except.error PyErr.indexError
          | some v =>
            match parse_rate v with
            | some q => Except.ok (some q, wr)
            | none => Except.error PyErr.valueError
        else if match1W cells then
          match cells.get? 1 with
          | none => Except.error PyErr.indexError
          | some v =>
            match parse_rate v with
            | some q => Except.ok (onr, some q)
            | none => Except.error PyErr.valueError
        else Except.ok (onr, wr) : Except PyErr (Option ℚ × Option ℚ)) with
      | .error e => .error e
      | .ok (onr2, wr2) =>
        if onr2.isSome && wr2.isSome then .ok (onr2, wr2)
        else scanRows rest onr2 wr2

/-- sbv_rate_crawler.fetch_rates on an already-fetched document, as for
fetch_fx_rates (the capture date is returned unchanged and not modelled). -/
def fetch_rates (table : Option (List (List String))) : Except PyErr (ℚ × ℚ) :=
  match table with
  | none => .error (.runtimeError "No table found on page")
  | some rows =>
    match scanRows rows none none with
    | .error e => .error e
    | .ok (some onr, some wr) => .ok (onr, wr)
    | .ok _ => .error (.runtimeError "Could not parse rates from page")

end Sbv

namespace Margin

/-- The JSON object decoded from one FireAnt response, restricted to the
four fields the code reads.  A field that is absent (or JSON null, which
dict.get also maps to None) is none. -/
structure Payload where
  marginRoom : Option ℚ
  margin_room : Option ℚ
  industryName : Option String
  sector : Option String
deriving DecidableEq

/-- The Python expression `a or b` on two optional numbers: a is returned
when it is truthy (present and nonzero), otherwise b. -/
def pyOrQ : Option ℚ → Option ℚ → Option ℚ
  | some a, b => if a = 0 then b else some a
  | none, b => b

/-- The Python expression `a or b` on two optional strings: a is returned
when it is truthy (present and non-empty), otherwise b. -/
def pyOrS : Option String → Option String → Option String
  | some a, b => if a = "" then b else some a
  | none, b => b

/-- margin_room_crawler.fetch_margin_data on an already-decoded payload:
margin_room = data.get("marginRoom") or data.get("margin_room");
sector = data.get("industryName") or data.get("sector");
raise RuntimeError if margin_room is None; return (margin_room, sector or ""). -/
def fetch_margin_data (data : Payload) : Except PyErr (ℚ × String) :=
  match pyOrQ data.marginRoom data.margin_room with
  | none => .error (.runtimeError "Margin room not found in response")
  | some m =>
    .ok (m, match pyOrS data.industryName data.sector with
            | none => ""
            | some s => if s = "" then "" else s)

/-- The transport-and-decode step for one stock code: the api argument
models the HTTP GET plus BeautifulSoup text extraction plus json.loads,
either an error (TransportFailure or malformed payload) or the payload. -/
def fetchFor (api : String → Except PyErr Payload) (code : String) :
    Except PyErr (ℚ × String) :=
  match api code with
  | .error e => .error e
  | .ok d => fetch_margin_data d

/-- Does the whole fetch/parse step succeed for this stock code? -/
def fetchOK (api : String → Except PyErr Payload) (code : String) : Bool :=
  (fetchFor api code).isOk

/-- One row of the room_margin_detail table. -/
structure MarginRow where
  date_time : Nat
  stock_code : String
  margin_room : ℚ
  sector : String
deriving DecidableEq

/-- The primary key (date_time, stock_code) of a room_margin_detail row. -/
def rowKey (r : MarginRow) : Nat × String := (r.date_time, r.stock_code)

/-- margin_room_crawler.save_margin_details: upsert each row in order,
keyed by (date_time, stock_code). -/
def save_margin_details (db : List MarginRow) (rows : List MarginRow) : List MarginRow :=
  rows.foldl (upsertBy rowKey) db

/-- save_margin_details with its connection/commit failure mode explicit. -/
def save_margin_detailsE (fail : Bool) (db : List MarginRow) (rows : List MarginRow) :
    Except PyErr (List MarginRow) :=
  if fail then .error (.runtimeError "persistence failure")
  else .ok (save_margin_details db rows)

/-- The per-code loop of margin_room_crawler.main: for each code, try the
fetch/parse step; on success append (now, code, margin_room, sector) to
rows; on failure log the code and continue.  Returns the assembled rows
and the failed codes, each in input order. -/
def collect (api : String → Except PyErr Payload) (t : Nat) :
    List String → List MarginRow × List String
  | [] => ([], [])
  | code :: rest =>
    match fetchFor api code with
    | .ok (m, s) =>
      ((⟨t, code, m, s⟩ : MarginRow) :: (collect api t rest).1, (collect api t rest).2)
    | .error _ => ((collect api t rest).1, code :: (collect api t rest).2)

/-- margin_room_crawler.main from the per-code loop on, with the stock
codes already split and the connection parameters already resolved (a
well-formed DB_PORT): assemble rows across the stock codes, then, only if
rows is non-empty, call save_margin_details, catching and logging any
persistence failure.  The result triple is (final store, whether the
persistence function was called, failed codes); the Except layer records
whether an exception escapes.  The STOCK_LIST guard and the conn_params
construction that precede the loop are modelled explicitly by mainEnv
below, of which this is the valid-port specialization. -/
def main (codes : List String) (api : String → Except PyErr Payload) (t : Nat)
    (persistFail : Bool) (db : List MarginRow) :
    Except PyErr (List MarginRow × Bool × List String) :=
  let rows := (collect api t codes).1
  let fails := (collect api t codes).2
  if rows.isEmpty then .ok (db, false, fails)
  else
    match save_margin_detailsE persistFail db rows with
    | .error _ => .ok (db, true, fails)
    | .ok db2 => .ok (db2, true, fails)

end Margin

/-- Model of Python int(s) restricted to the unsigned decimal literals a
port variable carries: a nonempty digit string parses to its value; any
other string raises ValueError, modelled as none. -/
def pyInt (cs : List Char) : Option Nat :=
  if cs ≠ [] ∧ cs.all Char.isDigit then some (natVal cs) else none

namespace Fx

/-- fx_rate_crawler.main including the connection-parameter construction
that sits between the two try blocks: after a successful fetch the code
builds conn_params, evaluating int(os.getenv("DB_PORT", 5432)) outside
every try/except, so a non-numeric DB_PORT value raises ValueError
uncaught.  dbPort is the resolved environment string; the rest of main
is as in Fx.main. -/
def mainEnv (table : Option (List (List String))) (t : Nat) (dbPort : String)
    (persistFail : Bool) (db : List FxRow) : Except PyErr (List FxRow) :=
  match fetch_fx_rates table with
  | .error _ => .ok db
  | .ok (uv, uc) =>
    match pyInt dbPort.data with
    | none => .error .valueError
    | some _ =>
      match save_fx_rateE persistFail db t uv uc with
      | .error _ => .ok db
      | .ok db2 => .ok db2

/-- fx_rate_crawler.cron_job over mainEnv: start marker, main, finish
marker, logging a no-op in the model.  cron_job installs no exception
handler of its own, so an error escaping main escapes cron_job too. -/
def cron_jobEnv (table : Option (List (List String))) (t : Nat) (dbPort : String)
    (persistFail : Bool) (db : List FxRow) : Except PyErr (List FxRow) :=
  mainEnv table t dbPort persistFail db

end Fx

namespace Margin

/-- The stock-code list parsed from the STOCK_LIST environment string:
split on commas, strip the pieces, keep the non-empty ones. -/
def parseStockList (stockList : String) : List String :=
  ((stockList.split (fun c => c = ',')).map String.trim).filter (fun c => c ≠ "")

/-- margin_room_crawler.main including the STOCK_LIST guard and the
connection-parameter construction: an empty STOCK_LIST logs an error and
returns before anything else; otherwise conn_params is built, evaluating
int(os.getenv("DB_PORT", 5432)) outside every try/except, so a
non-numeric DB_PORT raises ValueError uncaught, before the per-code loop
runs.  The rest of main is as in Margin.main. -/
def mainEnv (stockList : String) (api : String → Except PyErr Payload) (t : Nat)
    (dbPort : String) (persistFail : Bool) (db : List MarginRow) :
    Except PyErr (List MarginRow × Bool × List String) :=
  if stockList = "" then .ok (db, false, [])
  else
    match pyInt dbPort.data with
    | none => .error .valueError
    | some _ => main (parseStockList stockList) api t persistFail db

/-- margin_room_crawler.cron_job over mainEnv; cron_job installs no
exception handler of its own. -/
def cron_jobEnv (stockList : String) (api : String → Except PyErr Payload) (t : Nat)
    (dbPort : String) (persistFail : Bool) (db : List MarginRow) :
    Except PyErr (List MarginRow × Bool × List String) :=
  mainEnv stockList api t dbPort persistFail db

end Margin

/-! ### Generic facts about the keyed upsert -/

theorem map_replace_id {α β : Type} [DecidableEq β] (key : α → β) (db : List α) (r : α)
    (h : ∀ x ∈ db, key x ≠ key r) :
    db.map (fun x => if key x = key r then r else x) = db := by
  induction db with
  | nil => rfl
  | cons x xs ih =>
    have hx := h x (List.mem_cons_self x xs)
    simp only [List.map_cons, if_neg hx, List.cons.injEq, true_and]
    exact ih fun y hy => h y (List.mem_cons_of_mem x hy)

theorem filter_map_replace {α β : Type} [DecidableEq β] (key : α → β) (db : List α) (r : α)
    (h : ∀ x ∈ db, key x ≠ key r) :
    (db.map (fun x => if key x = key r then r else x)).filter
      (fun x => decide (key x = key r)) = [] := by
  rw [map_replace_id key db r h]
  exact List.filter_eq_nil_iff.mpr fun x hx => by simp [h x hx]

theorem filter_map_replace_mem {α β : Type} [DecidableEq β] (key : α → β) (db : List α) (r : α)
    (h : db.Pairwise fun a b => key a ≠ key b) (hmem : ∃ x ∈ db, key x = key r) :
    (db.map (fun x => if key x = key r then r else x)).filter
      (fun x => decide (key x = key r)) = [r] := by
  induction db with
  | nil => simp at hmem
  | cons x xs ih =>
    rw [List.pairwise_cons] at h
    by_cases hx : key x = key r
    · have htail : ∀ y ∈ xs, key y ≠ key r := fun y hy =>
        fun hc => h.1 y hy (hx.trans hc.symm)
      simp only [List.map_cons, if_pos hx, List.filter_cons, decide_eq_true_eq, if_pos rfl]
      rw [filter_map_replace key xs r htail]
      simp
    · obtain ⟨y, hy, hyr⟩ := hmem
      have hyxs : y ∈ xs := by
        rcases List.mem_cons.1 hy with h1 | h1
        · exact absurd (h1 ▸ hyr) hx
        · exact h1
      simp only [List.map_cons, if_neg hx, List.filter_cons, decide_eq_true_eq, if_neg hx]
      exact ih h.2 ⟨y, hyxs, hyr⟩

theorem upsertBy_filter_key {α β : Type} [DecidableEq β] (key : α → β) (db : List α) (r : α)
    (h : db.Pairwise fun a b => key a ≠ key b) :
    (upsertBy key db r).filter (fun x => decide (key x = key r)) = [r] := by
  unfold upsertBy
  by_cases hany : db.any (fun x => decide (key x = key r)) = true
  · rw [if_pos hany]
    refine filter_map_replace_mem key db r h ?_
    obtain ⟨x, hx, hxr⟩ := List.any_eq_true.1 hany
    exact ⟨x, hx, of_decide_eq_true hxr⟩
  · rw [if_neg hany, List.filter_append]
    have hnone : ∀ x ∈ db, key x ≠ key r := by
      intro x hx
      have := List.any_eq_false.1 (Bool.eq_false_iff.2 hany) x hx
      simpa using this
    rw [List.filter_eq_nil_iff.mpr fun x hx => by simp [hnone x hx]]
    simp

theorem upsertBy_collapse {α β : Type} [DecidableEq β] (key : α → β) (db : List α) (r r2 : α)
    (hk : key r = key r2) :
    upsertBy key (upsertBy key db r) r2 = upsertBy key db r2 := by
  by_cases hany : db.any (fun x => decide (key x = key r)) = true
  · have hany2 : db.any (fun x => decide (key x = key r2)) = true := by
      rw [← hk]; exact hany
    obtain ⟨x0, hx0, hx0r⟩ := List.any_eq_true.1 hany
    have hx0r : key x0 = key r := of_decide_eq_true hx0r
    unfold upsertBy
    rw [if_pos hany, if_pos hany2]
    have hmap : (db.map fun x => if key x = key r then r else x).any
        (fun x => decide (key x = key r2)) = true := by
      refine List.any_eq_true.2 ⟨r, ?_, by simp [hk]⟩
      exact List.mem_map.2 ⟨x0, hx0, by rw [if_pos hx0r]⟩
    rw [if_pos hmap, List.map_map]
    refine List.map_congr_left fun x _ => ?_
    by_cases hx : key x = key r
    · simp only [Function.comp_apply, if_pos hx, if_pos hk, if_pos (hx.trans hk)]
    · simp only [Function.comp_apply, if_neg hx]
  · have hany' : db.any (fun x => decide (key x = key r)) = false :=
      Bool.eq_false_iff.2 hany
    have hany2 : db.any (fun x => decide (key x = key r2)) = false := by
      rw [← hk]; exact hany'
    unfold upsertBy
    rw [if_neg hany]
    have happ : (db ++ [r]).any (fun x => decide (key x = key r2)) = true := by
      refine List.any_eq_true.2 ⟨r, List.mem_append_right db (List.mem_singleton.2 rfl), by simp [hk]⟩
    rw [if_pos happ, if_neg (show ¬(db.any fun x => decide (key x = key r2)) = true by
      simp [hany2]), List.map_append]
    have hnone : ∀ x ∈ db, key x ≠ key r2 := by
      intro x hx
      have := List.any_eq_false.1 hany2 x hx
      simpa using this
    rw [map_replace_id key db r2 hnone]
    simp [hk]

/-! ### Claim C1 -/

/-- Claim C1: persistence is idempotent by primary-key upsert.  On a store
whose rows have pairwise distinct primary keys, saving a record leaves
exactly one row for its key, holding its values (for fx_rate keyed by
date_time, and for room_margin_detail keyed by (date_time, stock_code));
and saving again with the same key — identical or changed non-key fields —
collapses to a single save: the existing row's non-key columns are
overwritten and no second row appears. -/
theorem claim_C1_upsert_idempotent
    (db : List Fx.FxRow) (t : Nat) (uv uc uv2 uc2 : ℚ)
    (mdb : List Margin.MarginRow) (r r2 : Margin.MarginRow)
    (hfx : db.Pairwise fun a b => a.date_time ≠ b.date_time)
    (hm : mdb.Pairwise fun a b => Margin.rowKey a ≠ Margin.rowKey b)
    (hk : Margin.rowKey r = Margin.rowKey r2) :
    (Fx.save_fx_rate db t uv uc).filter (fun x => decide (x.date_time = t)) = [⟨t, uv, uc⟩]
    ∧ Fx.save_fx_rate (Fx.save_fx_rate db t uv uc) t uv2 uc2 = Fx.save_fx_rate db t uv2 uc2
    ∧ (Margin.save_margin_details mdb [r]).filter
        (fun x => decide (Margin.rowKey x = Margin.rowKey r)) = [r]
    ∧ Margin.save_margin_details (Margin.save_margin_details mdb [r]) [r2]
        = Margin.save_margin_details mdb [r2] := by
  refine ⟨?_, ?_, ?_, ?_⟩
  · exact upsertBy_filter_key Fx.FxRow.date_time db ⟨t, uv, uc⟩ hfx
  · exact upsertBy_collapse Fx.FxRow.date_time db ⟨t, uv, uc⟩ ⟨t, uv2, uc2⟩ rfl
  · exact upsertBy_filter_key Margin.rowKey mdb r hm
  · exact upsertBy_collapse Margin.rowKey mdb r r2 hk

/-- Witness for claim C1 at a concrete store, timestamp and records. -/
theorem claim_C1_upsert_idempotent_witness :
    (Fx.save_fx_rate [⟨1, 2, 3⟩] 1 4 5).filter (fun x => decide (x.date_time = 1))
        = [⟨1, 4, 5⟩]
    ∧ Fx.save_fx_rate (Fx.save_fx_rate [⟨1, 2, 3⟩] 1 4 5) 1 6 7
        = Fx.save_fx_rate [⟨1, 2, 3⟩] 1 6 7
    ∧ (Margin.save_margin_details [] [⟨1, "AAA", 2, "x"⟩]).filter
        (fun x => decide (Margin.rowKey x = Margin.rowKey ⟨1, "AAA", 2, "x"⟩))
        = [⟨1, "AAA", 2, "x"⟩]
    ∧ Margin.save_margin_details (Margin.save_margin_details [] [⟨1, "AAA", 2, "x"⟩])
        [⟨1, "AAA", 3, "y"⟩]
        = Margin.save_margin_details [] [⟨1, "AAA", 3, "y"⟩] :=
  claim_C1_upsert_idempotent [⟨1, 2, 3⟩] 1 4 5 6 7 [] ⟨1, "AAA", 2, "x"⟩ ⟨1, "AAA", 3, "y"⟩
    (by simp) (by simp) rfl

/-! ### Claim C3 -/

theorem splitDot_no_dot (l : List Char) (h : ∀ x ∈ l, x ≠ '.') : splitDot l = [l] := by
  induction l with
  | nil => rfl
  | cons x xs ih =>
    have hx : x ≠ '.' := h x (List.mem_cons_self x xs)
    simp only [splitDot, if_neg hx,
      ih fun y hy => h y (List.mem_cons_of_mem x hy)]

theorem splitDot_append (a t : List Char) (h : ∀ x ∈ a, x ≠ '.') :
    splitDot (a ++ '.' :: t) = a :: splitDot t := by
  induction a with
  | nil => simp [splitDot]
  | cons x xs ih =>
    have hx : x ≠ '.' := h x (List.mem_cons_self x xs)
    simp only [List.cons_append, splitDot, if_neg hx, List.append_eq,
      ih fun y hy => h y (List.mem_cons_of_mem x hy)]

theorem pyFloat_two_dots (a b c : List Char) (ha : ∀ x ∈ a, x ≠ '.')
    (hb : ∀ x ∈ b, x ≠ '.') (hc : ∀ x ∈ c, x ≠ '.') :
    pyFloat (a ++ '.' :: b ++ '.' :: c) = none := by
  have h1 : splitDot (a ++ '.' :: (b ++ '.' :: c)) = a :: splitDot (b ++ '.' :: c) :=
    splitDot_append a (b ++ '.' :: c) ha
  have h2 : splitDot (b ++ '.' :: c) = b :: splitDot c := splitDot_append b c hb
  have h3 : splitDot c = [c] := splitDot_no_dot c hc
  simp [pyFloat, h1, h2, h3]

theorem digit_ne_dot {x : Char} (h : x.isDigit = true) : x ≠ '.' := by
  intro hx; subst hx; simp [Char.isDigit] at h

theorem digit_ne_comma {x : Char} (h : x.isDigit = true) : x ≠ ',' := by
  intro hx; subst hx; simp [Char.isDigit] at h

theorem map_comma_digits (l : List Char) (h : l.all Char.isDigit = true) :
    l.map (fun ch => if ch = ',' then '.' else ch) = l := by
  induction l with
  | nil => rfl
  | cons x xs ih =>
    rw [List.all_cons, Bool.and_eq_true] at h
    simp only [List.map_cons, if_neg (digit_ne_comma h.1), List.cons.injEq, true_and]
    exact ih h.2

/-- Claim C3 is false on the code: substituting comma by period in a
string that also carries a period thousands separator leaves two periods,
which float(...) rejects, so parse_rate raises ValueError instead of
returning 1234.56. -/
theorem claim_C3_counterexample :
    Fx.parse_rate "1.234,56" = none
    ∧ Fx.parse_rate "1.234,56" ≠ some (1234.56 : ℚ)
    ∧ Sbv.parse_rate "1.234,56" = none
    ∧ Sbv.parse_rate "1.234,56" ≠ some (1234.56 : ℚ) := by
  refine ⟨rfl, ?_, rfl, ?_⟩
  · rw [show Fx.parse_rate "1.234,56" = none from rfl]; simp
  · rw [show Sbv.parse_rate "1.234,56" = none from rfl]; simp

/-- Claim C3 as amended: on every numeric string of the shape
"1.234,56" — nonempty digit groups around a period thousands separator
and a comma decimal separator — both parse_rate functions fail (return
none, modelling the ValueError raise), because the comma-to-period
substitution yields a two-period string; the comma-decimal rule yields
1234.56 only for the separator-free spelling "1234,56". -/
theorem claim_C3_comma_decimal (a b c : List Char)
    (ha : a.all Char.isDigit = true) (hb : b.all Char.isDigit = true)
    (hc : c.all Char.isDigit = true)
    (ha0 : a ≠ []) (hb0 : b ≠ []) (hc0 : c ≠ []) :
    Fx.parse_rate (String.mk (a ++ '.' :: b ++ ',' :: c)) = none
    ∧ Sbv.parse_rate (String.mk (a ++ '.' :: b ++ ',' :: c)) = none
    ∧ Fx.parse_rate "1234,56" = some (1234.56 : ℚ)
    ∧ Sbv.parse_rate "1234,56" = some (1234.56 : ℚ) := by
  have hdots : ∀ (l : List Char), l.all Char.isDigit = true → ∀ x ∈ l, x ≠ '.' := by
    intro l hl x hx
    exact digit_ne_dot (List.all_eq_true.1 hl x hx)
  have hmap : (a ++ '.' :: b ++ ',' :: c).map (fun ch => if ch = ',' then '.' else ch)
      = a ++ '.' :: b ++ '.' :: c := by
    simp only [List.map_append, List.map_cons,
      map_comma_digits a ha, map_comma_digits b hb, map_comma_digits c hc]
    rfl
  have hnone : pyFloat ((a ++ '.' :: b ++ ',' :: c).map
      (fun ch => if ch = ',' then '.' else ch)) = none := by
    rw [hmap]
    exact pyFloat_two_dots a b c (hdots a ha) (hdots b hb) (hdots c hc)
  have hpos : Fx.parse_rate "1234,56" = some (1234.56 : ℚ) := by
    have h : Fx.parse_rate "1234,56"
        = some ((natVal ['1', '2', '3', '4', '5', '6'] : ℚ) / 10 ^ 2) := rfl
    rw [h, show natVal ['1', '2', '3', '4', '5', '6'] = 123456 from rfl]
    norm_num
  exact ⟨hnone, hnone, hpos, hpos⟩

/-- Witness for the amended claim C3 at the concrete string "1.234,56". -/
theorem claim_C3_comma_decimal_witness :
    Fx.parse_rate (String.mk ('1' :: '.' :: '2' :: '3' :: '4' :: ',' :: '5' :: '6' :: [])) = none
    ∧ Fx.parse_rate "1234,56" = some (1234.56 : ℚ) := by
  have h := claim_C3_comma_decimal ['1'] ['2', '3', '4'] ['5', '6']
    (by decide) (by decide) (by decide) (by decide) (by decide) (by decide)
  exact ⟨h.1, h.2.2.1⟩

/-! ### Facts about the fx table scan -/

theorem fx_matchVND_nonempty {cells : List String} (h : Fx.matchVND cells = true) :
    cells.isEmpty = false := by
  rw [Fx.matchVND, Bool.and_eq_true] at h
  have := of_decide_eq_true h.2
  cases cells with
  | nil => simp at this
  | cons x xs => rfl

theorem fx_scan_uv_of_no_match (rows : List (List String)) :
    ∀ (uv uc : Option ℚ) (p : Option ℚ × Option ℚ),
    (∀ c ∈ rows, Fx.matchVND c = false) →
    Fx.scanRows rows uv uc = .ok p → p.1 = uv := by
  induction rows with
  | nil =>
    intro uv uc p _ hscan
    simp only [Fx.scanRows, Except.ok.injEq] at hscan
    rw [← hscan]
  | cons cells rest ih =>
    intro uv uc p h hscan
    have h0 : Fx.matchVND cells = false := h cells (List.mem_cons_self cells rest)
    have htail : ∀ c ∈ rest, Fx.matchVND c = false :=
      fun c hc => h c (List.mem_cons_of_mem cells hc)
    by_cases he : cells.isEmpty
    · simp only [Fx.scanRows, if_pos he] at hscan
      exact ih uv uc p htail hscan
    · by_cases hcny : Fx.matchCNY cells = true
      · cases hp : Fx.parse_rate (cells.getD 1 "") with
        | none =>
          simp only [Fx.scanRows, if_neg he, h0, Bool.false_eq_true, if_false,
            hcny, if_true, hp] at hscan
          exact absurd hscan (by simp)
        | some q =>
          simp only [Fx.scanRows, if_neg he, h0, Bool.false_eq_true, if_false,
            hcny, if_true, hp] at hscan
          by_cases hs : uv.isSome = true
          · simp only [hs, Option.isSome_some, Bool.and_self, if_true,
              Except.ok.injEq] at hscan
            rw [← hscan]
          · simp only [Bool.not_eq_true] at hs
            simp only [hs, Option.isSome_some, Bool.false_and, Bool.false_eq_true,
              if_false] at hscan
            exact ih uv (some q) p htail hscan
      · simp only [Fx.scanRows, if_neg he, h0, Bool.false_eq_true, if_false, hcny] at hscan
        by_cases hb : (uv.isSome && uc.isSome) = true
        · simp only [hb, if_true, Except.ok.injEq] at hscan
          rw [← hscan]
        · simp only [hb, if_false] at hscan
          exact ih uv uc p htail hscan

theorem fx_scan_vnd_value (r : List String) (post : List (List String)) (q : ℚ)
    (hr : Fx.matchVND r = true) (hq : Fx.parse_rate (r.getD 1 "") = some q)
    (hpost : ∀ c ∈ post, Fx.matchVND c = false) :
    ∀ (pre : List (List String)) (uc : Option ℚ) (p : Option ℚ × Option ℚ),
    (∀ c ∈ pre, Fx.matchVND c = false) →
    Fx.scanRows (pre ++ r :: post) none uc = .ok p → p.1 = some q := by
  intro pre
  induction pre with
  | nil =>
    intro uc p _ hscan
    simp only [List.nil_append, Fx.scanRows, fx_matchVND_nonempty hr, Bool.false_eq_true,
      if_false, hr, if_true, hq, Option.isSome_some, Bool.true_and] at hscan
    by_cases hs : uc.isSome = true
    · simp only [hs, if_true, Except.ok.injEq] at hscan
      rw [← hscan]
    · simp only [Bool.not_eq_true] at hs
      simp only [hs, Bool.false_eq_true, if_false] at hscan
      exact fx_scan_uv_of_no_match post (some q) uc p hpost hscan
  | cons cells pre2 ih =>
    intro uc p h hscan
    have h0 : Fx.matchVND cells = false := h cells (List.mem_cons_self cells pre2)
    have htail : ∀ c ∈ pre2, Fx.matchVND c = false :=
      fun c hc => h c (List.mem_cons_of_mem cells hc)
    rw [List.cons_append] at hscan
    by_cases he : cells.isEmpty
    · simp only [Fx.scanRows, if_pos he] at hscan
      exact ih uc p htail hscan
    · by_cases hcny : Fx.matchCNY cells = true
      · cases hp : Fx.parse_rate (cells.getD 1 "") with
        | none =>
          simp only [Fx.scanRows, if_neg he, h0, Bool.false_eq_true, if_false,
            hcny, if_true, hp] at hscan
          exact absurd hscan (by simp)
        | some q2 =>
          simp only [Fx.scanRows, if_neg he, h0, Bool.false_eq_true, if_false,
            hcny, if_true, hp, Option.isSome_none, Bool.false_and] at hscan
          exact ih (some q2) p htail hscan
      · simp only [Fx.scanRows, if_neg he, h0, Bool.false_eq_true, if_false, hcny,
          Option.isSome_none, Bool.false_and] at hscan
        exact ih uc p htail hscan

theorem fx_scan_break_append (rows : List (List String)) :
    ∀ (rows2 : List (List String)) (uv uc : Option ℚ) (a b : ℚ),
    (uv.isSome && uc.isSome) = false →
    Fx.scanRows rows uv uc = .ok (some a, some b) →
    Fx.scanRows (rows ++ rows2) uv uc = .ok (some a, some b) := by
  induction rows with
  | nil =>
    intro rows2 uv uc a b hst hscan
    simp only [Fx.scanRows, Except.ok.injEq, Prod.mk.injEq] at hscan
    rw [hscan.1, hscan.2] at hst
    simp at hst
  | cons cells rest ih =>
    intro rows2 uv uc a b hst hscan
    rw [List.cons_append]
    by_cases he : cells.isEmpty
    · simp only [Fx.scanRows, if_pos he] at hscan ⊢
      exact ih rows2 uv uc a b hst hscan
    · by_cases hvnd : Fx.matchVND cells = true
      · cases hp : Fx.parse_rate (cells.getD 1 "") with
        | none =>
          simp only [Fx.scanRows, if_neg he, hvnd, if_true, hp] at hscan
          exact absurd hscan (by simp)
        | some q =>
          simp only [Fx.scanRows, if_neg he, hvnd, if_true, hp,
            Option.isSome_some, Bool.true_and] at hscan ⊢
          by_cases hs : uc.isSome = true
          · simp only [hs, if_true] at hscan ⊢
            exact hscan
          · simp only [Bool.not_eq_true] at hs
            simp only [hs, Bool.false_eq_true, if_false] at hscan ⊢
            exact ih rows2 (some q) uc a b (by simp [hs]) hscan
      · by_cases hcny : Fx.matchCNY cells = true
        · cases hp : Fx.parse_rate (cells.getD 1 "") with
          | none =>
            simp only [Fx.scanRows, if_neg he, hvnd, Bool.false_eq_true, if_false,
              hcny, if_true, hp] at hscan
            exact absurd hscan (by simp)
          | some q =>
            simp only [Fx.scanRows, if_neg he, hvnd, Bool.false_eq_true, if_false,
              hcny, if_true, hp, Option.isSome_some, Bool.and_true] at hscan ⊢
            by_cases hs : uv.isSome = true
            · simp only [hs, if_true] at hscan ⊢
              exact hscan
            · simp only [Bool.not_eq_true] at hs
              simp only [hs, Bool.false_eq_true, if_false] at hscan ⊢
              exact ih rows2 uv (some q) a b (by simp [hs]) hscan
        · simp only [Fx.scanRows, if_neg he, hvnd, Bool.false_eq_true, if_false,
            hcny, hst, if_false] at hscan ⊢
          exact ih rows2 uv uc a b hst hscan

/-! ### Claim C2 -/

/-- Claim C2: two-tier table-row matching for the FX HTML parser.  If one
row of the table satisfies the USD/VND condition — its uppercased
space-joined cell text contains the exact composite label "USD/VND" or
both component tokens "USD" and "VND", and the row has more than one
cell — while every other row does not, then whenever the parser returns,
the value it returns for that field is the normalized value of that row's
second cell, regardless of the other, non-matching rows in the table. -/
theorem claim_C2_two_tier_match
    (pre post : List (List String)) (r : List String) (q a b : ℚ)
    (hr : Fx.matchVND r = true)
    (hq : Fx.parse_rate (r.getD 1 "") = some q)
    (hpre : ∀ c ∈ pre, Fx.matchVND c = false)
    (hpost : ∀ c ∈ post, Fx.matchVND c = false)
    (hok : Fx.fetch_fx_rates (some (pre ++ r :: post)) = .ok (a, b)) :
    a = q := by
  cases hscan : Fx.scanRows (pre ++ r :: post) none none with
  | error e => simp [Fx.fetch_fx_rates, hscan] at hok
  | ok p =>
    obtain ⟨uv, uc⟩ := p
    have h1 : uv = some q :=
      fx_scan_vnd_value r post q hr hq hpost pre none (uv, uc) hpre hscan
    subst h1
    cases uc with
    | none => simp [Fx.fetch_fx_rates, hscan] at hok
    | some y =>
      simp only [Fx.fetch_fx_rates, hscan, Except.ok.injEq, Prod.mk.injEq] at hok
      exact hok.1.symm

/-- Witness for claim C2 on a concrete three-row table. -/
theorem claim_C2_two_tier_match_witness :
    Fx.fetch_fx_rates (some [["USD/CNY", "3"], ["USD/VND", "2"], ["note"]]) = .ok (2, 3)
    ∧ (2 : ℚ) = 2 := by
  refine ⟨rfl, ?_⟩
  exact claim_C2_two_tier_match [["USD/CNY", "3"]] [["note"]] ["USD/VND", "2"] 2 2 3
    (by decide) rfl (by decide) (by decide) rfl

/-! ### Claim C4 -/

/-- Claim C4 is false on the code: when two rows match the same label
before all target fields are found, the scan does not keep the first
match — the later row overwrites it.  On this table the first USD/VND row
carries 1 and the second carries 2, and the parser returns 2. -/
theorem claim_C4_counterexample :
    Fx.fetch_fx_rates (some [["USD/VND", "1"], ["USD/VND", "2"], ["USD/CNY", "3"]])
      = .ok (2, 3)
    ∧ (2 : ℚ) ≠ 1 := by
  refine ⟨rfl, by norm_num⟩

/-- Claim C4 as amended: scanning stops as soon as all target fields have
been found — rows after that point never change the result (first
conjunct); but until that point a later row matching an already-found
label overwrites the earlier value, so within the scanned prefix the last
matching row wins, not the first (second conjunct, shown for the USD/VND
field: a matching row always reassigns the field, whatever its previous
value). -/
theorem claim_C4_early_stop_last_wins :
    (∀ (rows rows2 : List (List String)) (a b : ℚ),
      Fx.scanRows rows none none = .ok (some a, some b) →
      Fx.scanRows (rows ++ rows2) none none = .ok (some a, some b))
    ∧ (∀ (cells : List String) (rest : List (List String)) (uv uc : Option ℚ) (q : ℚ),
      Fx.matchVND cells = true →
      Fx.parse_rate (cells.getD 1 "") = some q →
      Fx.scanRows (cells :: rest) uv uc =
        if uc.isSome then .ok (some q, uc) else Fx.scanRows rest (some q) uc) := by
  constructor
  · intro rows rows2 a b h
    exact fx_scan_break_append rows rows2 none none a b rfl h
  · intro cells rest uv uc q hm hq
    simp only [Fx.scanRows, fx_matchVND_nonempty hm, Bool.false_eq_true, if_false, hm,
      if_true, hq, Option.isSome_some, Bool.true_and]

/-- Witness for the amended claim C4: the early stop ignores a trailing
USD/VND row once both fields are found, and a matching row overwrites a
previously set usd_vnd value. -/
theorem claim_C4_early_stop_last_wins_witness :
    Fx.scanRows ([["USD/VND", "1"], ["USD/CNY", "3"]] ++ [["USD/VND", "9"]]) none none
      = .ok (some 1, some 3)
    ∧ Fx.scanRows [["USD/VND", "2"]] (some 9) (some 5) = .ok (some 2, some 5) := by
  constructor
  · exact claim_C4_early_stop_last_wins.1 [["USD/VND", "1"], ["USD/CNY", "3"]]
      [["USD/VND", "9"]] 1 3 rfl
  · have h := claim_C4_early_stop_last_wins.2 ["USD/VND", "2"] [] (some 9) (some 5) 2
      rfl rfl
    simpa using h

/-! ### Claim C5 -/

/-- Claim C5: abort-on-missing-field for the single-entity fx job.  If the
row scan completes having extracted exactly one of the two required
fields, fetch_fx_rates raises RuntimeError, main catches it and returns
before persistence is attempted, and the store is left unchanged; a
document with no table behaves the same way. -/
theorem claim_C5_abort_on_missing :
    (∀ (rows : List (List String)) (p : Option ℚ × Option ℚ) (t : Nat) (pf : Bool)
      (db : List Fx.FxRow),
      Fx.scanRows rows none none = .ok p →
      (p.1.isSome = true ∧ p.2 = none) ∨ (p.1 = none ∧ p.2.isSome = true) →
      Fx.fetch_fx_rates (some rows)
        = .error (.runtimeError "Could not parse fx rates from page")
      ∧ Fx.main (some rows) t pf db = .ok db)
    ∧ (∀ (t : Nat) (pf : Bool) (db : List Fx.FxRow),
      Fx.fetch_fx_rates none = .error (.runtimeError "No table found on page")
      ∧ Fx.main none t pf db = .ok db) := by
  constructor
  · intro rows p t pf db hscan hone
    obtain ⟨uv, uc⟩ := p
    have hfetch : Fx.fetch_fx_rates (some rows)
        = .error (.runtimeError "Could not parse fx rates from page") := by
      rcases hone with ⟨h1, h2⟩ | ⟨h1, h2⟩
      · obtain ⟨x, hx⟩ := Option.isSome_iff_exists.1 h1
        simp only at h2
        subst h2
        simp only at hx
        subst hx
        simp [Fx.fetch_fx_rates, hscan]
      · simp only at h1
        subst h1
        simp [Fx.fetch_fx_rates, hscan]
    refine ⟨hfetch, ?_⟩
    simp [Fx.main, hfetch]
  · intro t pf db
    exact ⟨rfl, rfl⟩

/-- Witness for claim C5 on a table carrying only the USD/VND row. -/
theorem claim_C5_abort_on_missing_witness :
    Fx.fetch_fx_rates (some [["USD/VND", "2"]])
      = .error (.runtimeError "Could not parse fx rates from page")
    ∧ Fx.main (some [["USD/VND", "2"]]) 0 false [] = .ok [] :=
  claim_C5_abort_on_missing.1 [["USD/VND", "2"]] (some 2, none) 0 false [] rfl
    (Or.inl ⟨rfl, rfl⟩)

/-! ### Claim C9 -/

/-- Claim C9 is false on the code as stated: because the 1W test sits in
an elif behind the O/N test, a row whose first cell contains both "O/N"
and "1W" is matched for the O/N rate only; it is not matched for the
1-week rate even though its first cell contains "1W" and a parseable
second cell is present, so the 1-week field stays unset and the parse
fails. -/
theorem claim_C9_counterexample :
    Sbv.match1W ["O/N 1W", "7"] = true
    ∧ Sbv.fetch_rates (some [["O/N 1W", "7"]])
      = .error (.runtimeError "Could not parse rates from page") :=
  ⟨rfl, rfl⟩

/-- Claim C9 as amended: matching in the interbank-rate parser is decided
by the leading cell alone (both match conditions read only cells[0], first
conjunct), a row is matched for the O/N rate exactly when its first cell
contains "O/N" (second conjunct), and for the 1-week rate exactly when its
first cell does not contain "O/N" — the O/N branch takes precedence — and
contains "1W" or the localized 1-week variant (third conjunct); in either
case the matched value is read from the row's second cell; a row matching
neither condition leaves both fields untouched (fourth conjunct). -/
theorem claim_C9_leading_cell_match
    (cells : List String) (rest : List (List String)) (a w : Option ℚ)
    (v : String) (q : ℚ)
    (hv : cells.get? 1 = some v) (hq : Sbv.parse_rate v = some q) :
    (Sbv.matchON cells = Sbv.matchON [cells.headD ""]
      ∧ Sbv.match1W cells = Sbv.match1W [cells.headD ""])
    ∧ (Sbv.matchON cells = true →
      Sbv.scanRows (cells :: rest) a w =
        if w.isSome then .ok (some q, w) else Sbv.scanRows rest (some q) w)
    ∧ (Sbv.matchON cells = false → Sbv.match1W cells = true →
      Sbv.scanRows (cells :: rest) a w =
        if a.isSome then .ok (a, some q) else Sbv.scanRows rest a (some q))
    ∧ (Sbv.matchON cells = false → Sbv.match1W cells = false →
      (a.isSome && w.isSome) = false →
      Sbv.scanRows (cells :: rest) a w = Sbv.scanRows rest a w) := by
  have hemp : cells.isEmpty = false := by
    cases cells with
    | nil => simp at hv
    | cons x xs => rfl
  refine ⟨⟨rfl, rfl⟩, ?_, ?_, ?_⟩
  · intro hon
    simp only [Sbv.scanRows, hemp, Bool.false_eq_true, if_false, hon, if_true, hv, hq,
      Option.isSome_some, Bool.true_and]
  · intro hon h1w
    simp only [Sbv.scanRows, hemp, Bool.false_eq_true, if_false, hon, h1w, if_true,
      hv, hq, Option.isSome_some, Bool.and_true]
  · intro hon h1w hb
    simp only [Sbv.scanRows, hemp, Bool.false_eq_true, if_false, hon, h1w, hb]

/-- Witness for the amended claim C9 on a concrete O/N row. -/
theorem claim_C9_leading_cell_match_witness :
    Sbv.scanRows [["O/N", "3"]] none (some 5) = .ok (some 3, some 5) := by
  have h := (claim_C9_leading_cell_match ["O/N", "3"] [] none (some 5) "3" 3 rfl rfl).2.1 rfl
  simpa using h

/-! ### Claim C10 -/

/-- Claim C10: in the interbank-rate parser the second-cell access is
unguarded, so a single-cell row whose first cell matches either label
makes the scan raise IndexError (rather than skip the row), and the
error propagates out of fetch_rates. -/
theorem claim_C10_unguarded_index
    (s : String) (rest : List (List String))
    (h : (Sbv.matchON [s] || Sbv.match1W [s]) = true) :
    (∀ a w : Option ℚ, Sbv.scanRows ([s] :: rest) a w = .error .indexError)
    ∧ Sbv.fetch_rates (some ([s] :: rest)) = .error .indexError := by
  have hscan : ∀ a w : Option ℚ, Sbv.scanRows ([s] :: rest) a w = .error .indexError := by
    intro a w
    have hemp : ([s] : List String).isEmpty = false := rfl
    by_cases hon : Sbv.matchON [s] = true
    · simp [Sbv.scanRows, hemp, hon]
    · have h1w : Sbv.match1W [s] = true := by
        rw [Bool.or_eq_true] at h
        rcases h with h | h
        · exact absurd h hon
        · exact h
      simp [Sbv.scanRows, hemp, hon, h1w]
  exact ⟨hscan, by simp [Sbv.fetch_rates, hscan none none]⟩

/-- Witness for claim C10 at the concrete one-cell row "O/N". -/
theorem claim_C10_unguarded_index_witness :
    Sbv.fetch_rates (some [["O/N"]]) = .error .indexError :=
  (claim_C10_unguarded_index "O/N" [] (by decide)).2

/-! ### Claim C6 -/

theorem margin_collect_spec (api : String → Except PyErr Margin.Payload) (t : Nat) :
    ∀ codes : List String,
    (Margin.collect api t codes).1.length + (Margin.collect api t codes).2.length
      = codes.length
    ∧ (Margin.collect api t codes).1.map Margin.MarginRow.stock_code
      = codes.filter (Margin.fetchOK api)
    ∧ (Margin.collect api t codes).2 = codes.filter (fun c => !(Margin.fetchOK api c)) := by
  intro codes
  induction codes with
  | nil => exact ⟨rfl, rfl, rfl⟩
  | cons code rest ih =>
    cases hf : Margin.fetchFor api code with
    | ok pr =>
      obtain ⟨m, s⟩ := pr
      have hok : Margin.fetchOK api code = true := by
        simp [Margin.fetchOK, hf, Except.isOk, Except.toBool]
      simp only [Margin.collect, hf, List.length_cons, List.map_cons, List.filter_cons,
        hok, Bool.not_true, Bool.false_eq_true, if_false, if_true, List.cons.injEq]
      refine ⟨?_, ⟨trivial, ih.2.1⟩, ih.2.2⟩
      have := ih.1
      omega
    | error e =>
      have hok : Margin.fetchOK api code = false := by
        simp [Margin.fetchOK, hf, Except.isOk, Except.toBool]
      simp only [Margin.collect, hf, List.length_cons, List.map_cons, List.filter_cons,
        hok, Bool.not_false, Bool.false_eq_true, if_false, if_true, List.cons.injEq]
      exact ⟨by rw [Nat.add_succ, ih.1], ih.2.1, trivial, ih.2.2⟩

/-- Claim C6: partial-failure tolerance in the multi-entity margin job.
Of N stock codes, exactly the successful ones yield records (the rows
passed to persistence list precisely the codes whose fetch/parse step
succeeded, in order), the failed codes are exactly the logged ones, and
successes and failures partition the N codes; when no code succeeds the
persistence function is not called at all (the save-called flag is false
and the store is untouched); when at least one succeeds and persistence
itself does not fail, the store receives exactly the assembled records. -/
theorem claim_C6_partial_failure
    (api : String → Except PyErr Margin.Payload) (t : Nat) (codes : List String)
    (pf : Bool) (db : List Margin.MarginRow) :
    (Margin.collect api t codes).1.length + (Margin.collect api t codes).2.length
      = codes.length
    ∧ (Margin.collect api t codes).1.map Margin.MarginRow.stock_code
      = codes.filter (Margin.fetchOK api)
    ∧ (Margin.collect api t codes).2 = codes.filter (fun c => !(Margin.fetchOK api c))
    ∧ ((Margin.collect api t codes).1 = [] →
      Margin.main codes api t pf db = .ok (db, false, (Margin.collect api t codes).2))
    ∧ ((Margin.collect api t codes).1 ≠ [] → pf = false →
      Margin.main codes api t pf db
        = .ok (Margin.save_margin_details db (Margin.collect api t codes).1, true,
            (Margin.collect api t codes).2)) := by
  obtain ⟨h1, h2, h3⟩ := margin_collect_spec api t codes
  refine ⟨h1, h2, h3, ?_, ?_⟩
  · intro hnil
    simp only [Margin.main, hnil, List.isEmpty_nil, if_true]
  · intro hne hpf
    have hemp : (Margin.collect api t codes).1.isEmpty = false := by
      cases hrows : (Margin.collect api t codes).1 with
      | nil => exact absurd hrows hne
      | cons x xs => rfl
    subst hpf
    simp only [Margin.main, hemp, Bool.false_eq_true, if_false,
      Margin.save_margin_detailsE, if_false]

/-- Witness for claim C6: with a single code whose fetch fails, no
persistence call is made and the store is untouched; with one succeeding
code and one failing code, the single assembled record is persisted and
the failing code is the one logged. -/
theorem claim_C6_partial_failure_witness :
    Margin.main ["AAA"] (fun _ => .error .valueError) 0 false [] = .ok ([], false, ["AAA"])
    ∧ Margin.main ["AAA", "BBB"]
      (fun c => if c = "AAA" then .ok ⟨some 1, none, none, none⟩ else .error .valueError)
      0 false []
      = .ok ([⟨0, "AAA", 1, ""⟩], true, ["BBB"]) := by
  constructor
  · exact (claim_C6_partial_failure (fun _ => .error .valueError) 0 ["AAA"] false []).2.2.2.1 rfl
  · have h := (claim_C6_partial_failure
      (fun c => if c = "AAA" then .ok ⟨some 1, none, none, none⟩ else .error .valueError)
      0 ["AAA", "BBB"] false []).2.2.2.2 (by decide) rfl
    exact h

/-! ### Claim C7 -/

/-- Claim C7 is false on the code as stated: the lookup chain uses the
Python or-operator, which treats a present zero as missing.  A payload in
which the key marginRoom is present with value 0 and margin_room is
absent makes fetch_margin_data raise even though the key is present. -/
theorem claim_C7_counterexample :
    Margin.fetch_margin_data ⟨some 0, none, none, none⟩
      = .error (.runtimeError "Margin room not found in response")
    ∧ (Margin.Payload.marginRoom ⟨some 0, none, none, none⟩).isSome = true :=
  ⟨rfl, rfl⟩

/-- Claim C7 as amended: fetch_margin_data raises for a stock code exactly
when the marginRoom field is absent or zero AND the alternate-casing
margin_room field is absent (the or-chain treats a falsy zero like a
missing key); a present nonzero marginRoom is returned, as is margin_room
whenever marginRoom is absent or zero; and when both category fields are
absent the returned sector defaults to the empty string. -/
theorem margin_fetch_some (p : Margin.Payload) (m : ℚ)
    (h : Margin.pyOrQ p.marginRoom p.margin_room = some m) :
    ∃ s, Margin.fetch_margin_data p = .ok (m, s) := by
  unfold Margin.fetch_margin_data
  rw [h]
  exact ⟨_, rfl⟩

theorem claim_C7_margin_field_contract (p : Margin.Payload) :
    ((∃ e, Margin.fetch_margin_data p = .error e) ↔
      ((p.marginRoom = none ∨ p.marginRoom = some 0) ∧ p.margin_room = none))
    ∧ (∀ m : ℚ, m ≠ 0 → p.marginRoom = some m →
      ∃ s, Margin.fetch_margin_data p = .ok (m, s))
    ∧ (∀ m : ℚ, (p.marginRoom = none ∨ p.marginRoom = some 0) → p.margin_room = some m →
      ∃ s, Margin.fetch_margin_data p = .ok (m, s))
    ∧ (p.industryName = none → p.sector = none →
      ∀ (m : ℚ) (s : String), Margin.fetch_margin_data p = .ok (m, s) → s = "") := by
  obtain ⟨mr, mr2, ind, sec⟩ := p
  refine ⟨?_, ?_, ?_, ?_⟩
  · cases mr with
    | none =>
      cases mr2 with
      | none => simp [Margin.fetch_margin_data, Margin.pyOrQ]
      | some m => simp [Margin.fetch_margin_data, Margin.pyOrQ]
    | some x =>
      by_cases hx : x = 0
      · subst hx
        cases mr2 with
        | none => simp [Margin.fetch_margin_data, Margin.pyOrQ]
        | some m => simp [Margin.fetch_margin_data, Margin.pyOrQ]
      · simp [Margin.fetch_margin_data, Margin.pyOrQ, hx]
  · intro m hm hmr
    simp only at hmr
    subst hmr
    exact margin_fetch_some _ m (by simp [Margin.pyOrQ, hm])
  · intro m hmr hmr2
    simp only at hmr2
    subst hmr2
    rcases hmr with h | h <;> simp only at h <;> subst h
    · exact margin_fetch_some _ m (by simp [Margin.pyOrQ])
    · exact margin_fetch_some _ m (by simp [Margin.pyOrQ])
  · intro hind hsec m s hok
    simp only at hind hsec
    subst hind
    subst hsec
    cases hq : Margin.pyOrQ mr mr2 with
    | none => simp [Margin.fetch_margin_data, hq] at hok
    | some m2 =>
      simp only [Margin.fetch_margin_data, hq, Margin.pyOrS, Except.ok.injEq,
        Prod.mk.injEq] at hok
      exact hok.2.symm

/-- Witness for the amended claim C7: a payload with both margin keys
absent raises; a payload with a nonzero marginRoom succeeds. -/
theorem claim_C7_margin_field_contract_witness :
    (∃ e, Margin.fetch_margin_data ⟨none, none, none, none⟩ = .error e)
    ∧ (∃ s, Margin.fetch_margin_data ⟨some 5, none, none, none⟩ = .ok (5, s)) :=
  ⟨(claim_C7_margin_field_contract ⟨none, none, none, none⟩).1.mpr ⟨Or.inl rfl, rfl⟩,
    (claim_C7_margin_field_contract ⟨some 5, none, none, none⟩).2.1 5 (by norm_num) rfl⟩

/-! ### Claim C8 -/

theorem fx_main_isOk (table : Option (List (List String))) (t : Nat) (pf : Bool)
    (db : List Fx.FxRow) : (Fx.main table t pf db).isOk = true := by
  rw [Fx.main]
  cases Fx.fetch_fx_rates table with
  | error e => rfl
  | ok p =>
    obtain ⟨uv, uc⟩ := p
    cases pf <;> rfl

theorem margin_main_isOk (codes : List String) (api : String → Except PyErr Margin.Payload)
    (t : Nat) (pf : Bool) (db : List Margin.MarginRow) :
    (Margin.main codes api t pf db).isOk = true := by
  rw [Margin.main]
  cases hemp : (Margin.collect api t codes).1.isEmpty with
  | true => simp only [hemp, if_true]; rfl
  | false =>
    simp only [hemp, Bool.false_eq_true, if_false]
    cases pf <;> rfl

theorem fx_mainEnv_valid_port (table : Option (List (List String))) (t : Nat)
    (port : String) (n : Nat) (pf : Bool) (db : List Fx.FxRow)
    (h : pyInt port.data = some n) :
    Fx.mainEnv table t port pf db = Fx.main table t pf db := by
  rw [Fx.mainEnv, Fx.main]
  cases Fx.fetch_fx_rates table with
  | error e => rfl
  | ok p =>
    obtain ⟨uv, uc⟩ := p
    rw [h]

theorem margin_mainEnv_valid_port (stockList : String)
    (api : String → Except PyErr Margin.Payload) (t : Nat) (port : String) (n : Nat)
    (pf : Bool) (db : List Margin.MarginRow)
    (hs : stockList ≠ "") (h : pyInt port.data = some n) :
    Margin.mainEnv stockList api t port pf db
      = Margin.main (Margin.parseStockList stockList) api t pf db := by
  rw [Margin.mainEnv, if_neg hs, h]

/-- Claim C8 is false on the code as stated: the connection-parameter
construction int(os.getenv("DB_PORT", 5432)) sits outside every
try/except in both scripts, so with DB_PORT set to the non-numeric string
"abc" the ValueError escapes main and cron_job to the process boundary —
for the fx job as soon as fetch and parse succeed, and for the margin job
whenever STOCK_LIST is non-empty, before any per-code fetch runs. -/
theorem claim_C8_counterexample :
    Fx.cron_jobEnv (some [["USD/VND", "2"], ["USD/CNY", "3"]]) 0 "abc" false []
      = .error .valueError
    ∧ Margin.cron_jobEnv "AAA" (fun _ => .ok ⟨some 1, none, none, none⟩) 0 "abc" false []
      = .error .valueError :=
  ⟨rfl, rfl⟩

/-- Claim C8 as amended: every failure arising inside the pipeline stages
— fetch, parse, normalization, per-entity API access, persistence — is
caught at the orchestration boundary, and with a numeric DB_PORT both
entry points return normally for every document, API outcome, timestamp
and persistence-failure flag (first two conjuncts); the one exception is
the connection-parameter construction, which sits outside every
try/except: with a non-numeric DB_PORT the fx entry point lets ValueError
escape exactly on the runs where fetch and parse succeed (third
conjunct), and the margin entry point lets it escape on every run with a
non-empty STOCK_LIST (fourth conjunct). -/
theorem claim_C8_never_crash_amended :
    (∀ (table : Option (List (List String))) (t : Nat) (port : String) (n : Nat)
      (pf : Bool) (db : List Fx.FxRow), pyInt port.data = some n →
      (Fx.cron_jobEnv table t port pf db).isOk = true)
    ∧ (∀ (stockList : String) (api : String → Except PyErr Margin.Payload) (t : Nat)
      (port : String) (n : Nat) (pf : Bool) (db : List Margin.MarginRow),
      pyInt port.data = some n →
      (Margin.cron_jobEnv stockList api t port pf db).isOk = true)
    ∧ (∀ (table : Option (List (List String))) (t : Nat) (port : String)
      (pf : Bool) (db : List Fx.FxRow), pyInt port.data = none →
      (Fx.fetch_fx_rates table).isOk = true →
      Fx.cron_jobEnv table t port pf db = .error .valueError)
    ∧ (∀ (stockList : String) (api : String → Except PyErr Margin.Payload) (t : Nat)
      (port : String) (pf : Bool) (db : List Margin.MarginRow),
      stockList ≠ "" → pyInt port.data = none →
      Margin.cron_jobEnv stockList api t port pf db = .error .valueError) := by
  refine ⟨?_, ?_, ?_, ?_⟩
  · intro table t port n pf db h
    rw [Fx.cron_jobEnv, fx_mainEnv_valid_port table t port n pf db h]
    exact fx_main_isOk table t pf db
  · intro stockList api t port n pf db h
    by_cases hs : stockList = ""
    · subst hs
      rfl
    · rw [Margin.cron_jobEnv, margin_mainEnv_valid_port stockList api t port n pf db hs h]
      exact margin_main_isOk (Margin.parseStockList stockList) api t pf db
  · intro table t port pf db h hfetch
    rw [Fx.cron_jobEnv, Fx.mainEnv]
    cases hf : Fx.fetch_fx_rates table with
    | error e =>
      rw [hf] at hfetch
      simp [Except.isOk, Except.toBool] at hfetch
    | ok p =>
      obtain ⟨uv, uc⟩ := p
      simp only [hf, h]
  · intro stockList api t port pf db hs h
    rw [Margin.cron_jobEnv, Margin.mainEnv, if_neg hs, h]

/-- Witness for the amended claim C8 at concrete inputs with the numeric
DB_PORT string "5432". -/
theorem claim_C8_never_crash_amended_witness :
    (Fx.cron_jobEnv (some [["USD/VND", "2"], ["USD/CNY", "3"]]) 0 "5432" false []).isOk
      = true
    ∧ (Margin.cron_jobEnv "AAA" (fun _ => .error .valueError) 0 "5432" false []).isOk
      = true :=
  ⟨claim_C8_never_crash_amended.1 (some [["USD/VND", "2"], ["USD/CNY", "3"]]) 0 "5432"
      5432 false [] rfl,
    claim_C8_never_crash_amended.2.1 "AAA" (fun _ => .error .valueError) 0 "5432"
      5432 false [] rfl⟩

end InvestmentDashboard
